import Mathlib

/-
Verification development for the Prefect server supervisor.

Shallow embedding of the core data model and operations:
  * safety sanitizer            (src/prefect/safety/sanitizer.py)
  * enforcement allowlist       (src/prefect/safety/allowlist.py)
  * safety classifier/bootstrap (src/prefect/discovery/bootstrap.py)
  * help-output parser          (src/prefect/discovery/parser.py)
  * command registry            (src/prefect/discovery/registry.py)
  * command discoverer          (src/prefect/discovery/discoverer.py)
  * rolling log buffer/tailers  (src/prefect/watchers/log_tail.py)
  * log-line ingestion          (src/prefect/server_control/process_manager.py)

Python strings are modelled as Lean `String`; machine side effects
(wall-clock timestamps, sleeps, logging) are passed explicitly or omitted
where they do not influence the modelled result.  Python regular
expressions from the source files are translated into explicit character
scanners with the same match semantics on the inputs the program handles
(ASCII word characters for word boundaries).
-/

namespace Prefect

/-! ### Python string primitives -/

/-- Characters treated as whitespace by Python's `str.strip`/`str.isspace`
(ASCII whitespace plus the file/group/record/unit separators, NEL and NBSP). -/
def pyIsSpace (c : Char) : Bool :=
  c == ' ' || c == '\t' || c == '\n' || c == '\r' || c == '\x0b' || c == '\x0c' ||
    (0x1c ≤ c.toNat && c.toNat ≤ 0x1f) || c.toNat == 0x85 || c.toNat == 0xa0

/-- Drop trailing characters satisfying `p` (helper for Python `rstrip`). -/
def dropTrailing (p : Char → Bool) (cs : List Char) : List Char :=
  (cs.reverse.dropWhile p).reverse

/-- Python `str.strip()` (no arguments): trim whitespace from both ends. -/
def pyStrip (s : String) : String :=
  String.mk (dropTrailing pyIsSpace (s.data.dropWhile pyIsSpace))

/-- Python `str.lstrip()` (no arguments). -/
def pyLstrip (s : String) : String :=
  String.mk (s.data.dropWhile pyIsSpace)

/-- Python `str.rstrip()` (no arguments). -/
def pyRstrip (s : String) : String :=
  String.mk (dropTrailing pyIsSpace s.data)

/-- Python `str.lstrip(chars)`: trim any leading character in `chars`. -/
def pyLstripChars (chars : List Char) (s : String) : String :=
  String.mk (s.data.dropWhile (fun c => chars.contains c))

/-- Python `str.rstrip(chars)`: trim any trailing character in `chars`. -/
def pyRstripChars (chars : List Char) (s : String) : String :=
  String.mk (dropTrailing (fun c => chars.contains c) s.data)

/-- Substring containment on character lists (Python's `sub in s`). -/
def listContainsSub (sub : List Char) : List Char → Bool
  | [] => sub.isPrefixOf ([] : List Char)
  | c :: t => sub.isPrefixOf (c :: t) || listContainsSub sub t

/-- Python's `sub in s` for strings. -/
def strContainsSub (s sub : String) : Bool :=
  listContainsSub sub.data s.data

/-- Python `str.lower()` (ASCII case folding, per `Char.toLower`). -/
def strToLower (s : String) : String :=
  String.mk (s.data.map Char.toLower)

/-- Python `str.startswith(pre)`. -/
def pyStartsWith (s pre : String) : Bool :=
  pre.data.isPrefixOf s.data

/-- Python `s[:n]` slicing by code points. -/
def strTake (s : String) (n : Nat) : String :=
  String.mk (s.data.take n)

/-- Split on newline characters (`str.split("\n")`), accumulating the
current segment in reverse. -/
def splitLinesAux : List Char → List Char → List String
  | acc, [] => [String.mk acc.reverse]
  | acc, '\n' :: t => String.mk acc.reverse :: splitLinesAux [] t
  | acc, c :: t => splitLinesAux (c :: acc) t

/-- Python `str.split("\n")`. -/
def splitLines (s : String) : List String :=
  splitLinesAux [] s.data

/-- `str.replace("\r\n", "\n")`: leftmost non-overlapping replacement. -/
def replaceCrLf : List Char → List Char
  | '\r' :: '\n' :: t => '\n' :: replaceCrLf t
  | c :: t => c :: replaceCrLf t
  | [] => []

/-- Join strings with newlines (`"\n".join(...)`). -/
def joinLines : List String → String
  | [] => ""
  | [l] => l
  | l :: rest => l ++ "\n" ++ joinLines rest

/-! ### Sanitizer (`src/prefect/safety/sanitizer.py`)

`sanitize_command` raising `UnsafeInputError` is modelled as `Except.error`
carrying the error message. -/

/-- The fixed shell-metacharacter blocklist `_DISALLOWED_CHARS`
(`;|&><$(){}[]` backtick and backslash). -/
def DISALLOWED_CHARS : List Char :=
  [';', '|', '&', '>', '<', '$', '(', ')', '\x7b', '\x7d', '[', ']', '\x60', '\\']

/-- `_check_common`: reject CR/LF and blocklisted characters. -/
def check_common (value : String) : Except String Unit :=
  if value.data.any (fun c => c == '\n' || c == '\r') then
    Except.error "Newlines are not permitted"
  else if value.data.any (fun c => DISALLOWED_CHARS.contains c) then
    Except.error "Disallowed characters detected"
  else
    Except.ok ()

/-- `sanitize_command(command, max_length)` (the Python default for
`max_length` is 200; here it is passed explicitly).  The `command is None`
branch is unrepresentable for a Lean `String`. -/
def sanitize_command (command : String) (maxLength : Nat) : Except String String :=
  let cmd := pyStrip command
  if cmd = "" then Except.error "Command is empty"
  else if maxLength < cmd.length then
    Except.error ("Command exceeds max length (" ++ toString maxLength ++ ")")
  else
    match check_common cmd with
    | Except.error e => Except.error e
    | Except.ok _ => Except.ok cmd

/-! ### Enforcement allowlist (`src/prefect/safety/allowlist.py`) -/

/-- `CommandAllowlist`: a frozen list of string prefixes. -/
structure CommandAllowlist where
  prefixes : List String
deriving DecidableEq

/-- First-occurrence deduplication, as `dict.fromkeys` preserves the first
occurrence of each key in order (`seen` accumulates keys already emitted). -/
def dedupFirstAux (seen : List String) : List String → List String
  | [] => []
  | x :: t =>
      if seen.contains x then dedupFirstAux seen t
      else x :: dedupFirstAux (x :: seen) t

/-- First-occurrence deduplication of a list of strings. -/
def dedupFirst (l : List String) : List String :=
  dedupFirstAux [] l

/-- `CommandAllowlist.default(extra_prefixes)`: hardcoded base prefixes plus
caller extras, deduplicated preserving first occurrence. -/
def CommandAllowlist.default (extra : List String) : CommandAllowlist :=
  let base := ["help", "?", "say ", "players", "list", "status",
               "y", "n", "yes", "no",
               "1", "2", "3", "4", "5", "6", "7", "8", "9", "0"]
  ⟨dedupFirst (base ++ extra)⟩

/-- `CommandAllowlist.is_allowed(command)`. -/
def CommandAllowlist.is_allowed (al : CommandAllowlist) (command : String) : Bool :=
  let normalized := pyLstrip command
  if normalized = "" then false
  else al.prefixes.any (fun p => normalized == p || pyStartsWith normalized p)

/-! ### Safety classifier patterns (`src/prefect/discovery/bootstrap.py`)

The classifier's `re` patterns are word-boundary keyword searches and
anchored exact matches; they are translated into explicit scanners with the
same semantics (case-insensitivity is realised by lowercasing the subject,
word characters are ASCII alphanumerics and underscore, and `$` also
matches just before one final trailing newline, as in Python `re`). -/

/-- A regex word character (`\w` over the ASCII inputs handled here). -/
def isWordChar (c : Char) : Bool :=
  c.isAlphanum || c == '_'

/-- Does some keyword of `kw` occur at the head of `cs` delimited by word
boundaries?  `prev` is the character just before `cs` (`none` at string
start).  Keywords consist of word characters, so `\b` holds exactly when
the neighbouring character is absent or not a word character. -/
def beginsWithWordAt (kw : List Char) (prev : Option Char) (cs : List Char) : Bool :=
  (match prev with
   | none => true
   | some p => !(isWordChar p)) &&
  kw.isPrefixOf cs &&
  (match cs.drop kw.length with
   | [] => true
   | c :: _ => !(isWordChar c))

/-- Scan `cs` for a word-boundary occurrence of any keyword. -/
def wordSearchAux (kws : List (List Char)) : Option Char → List Char → Bool
  | prev, [] => kws.any (fun kw => beginsWithWordAt kw prev [])
  | prev, c :: t =>
      kws.any (fun kw => beginsWithWordAt kw prev (c :: t)) ||
        wordSearchAux kws (some c) t

/-- `re.search(r"\b(k1|k2|...)\b", s, re.IGNORECASE)` for lowercase
keywords `kws`. -/
def wordSearch (kws : List String) (s : String) : Bool :=
  wordSearchAux (kws.map (fun k => k.data)) none (strToLower s).data

/-- After a boundary-delimited occurrence of a keyword from `kws1`, scan the
rest of the same line for a boundary-delimited keyword from `kws2`
(the `.*` of the pattern does not cross newlines). -/
def seqWordSearchAux (kws1 kws2 : List (List Char)) : Option Char → List Char → Bool
  | _, [] => false
  | prev, c :: t =>
      (kws1.any (fun kw =>
        beginsWithWordAt kw prev (c :: t) &&
          wordSearchAux kws2 kw.getLast? ((c :: t).drop kw.length))) ||
        seqWordSearchAux kws1 kws2 (some c) t

/-- `re.search(r"\b(w1|w2)\b.*\b(v1|v2)\b", s, re.IGNORECASE)`: since `.`
does not match a newline, the two keyword occurrences must lie within one
newline-delimited segment, in order. -/
def seqWordSearch (kws1 kws2 : List String) (s : String) : Bool :=
  (splitLines (strToLower s)).any
    (fun seg => seqWordSearchAux (kws1.map (fun k => k.data)) (kws2.map (fun k => k.data)) none seg.data)

/-- `re.match(r"^kw$", s, re.IGNORECASE)` for a lowercase keyword: the whole
string equals the keyword, optionally followed by one final newline. -/
def reFullMatch (kw : String) (s : String) : Bool :=
  strToLower s == kw || strToLower s == kw ++ "\n"

/-- `re.match(r".*kw$", s, re.IGNORECASE)`: the string (sans one optional
final newline) contains no newline and ends with the keyword. -/
def dotStarEndMatch (kw : String) (s : String) : Bool :=
  let t := (strToLower s).data
  let v := if t.getLast? == some '\n' then t.dropLast else t
  !(v.contains '\n') && kw.data.isSuffixOf v

/-- `_DANGEROUS_PATTERNS`: ordered `re.search` rules marking a command
dangerous. -/
def DANGEROUS_PATTERNS : List (String → Bool) :=
  [wordSearch ["kick", "ban", "unban", "pardon"],
   wordSearch ["op", "deop", "admin"],
   wordSearch ["save", "load", "backup", "restore"],
   wordSearch ["stop", "shutdown", "restart", "reload"],
   wordSearch ["give", "spawn", "summon", "create"],
   wordSearch ["tp", "teleport", "warp"],
   wordSearch ["kill", "damage", "heal"],
   wordSearch ["set", "config", "configure", "edit"],
   wordSearch ["add", "remove", "delete", "clear"],
   wordSearch ["cheat", "god", "fly", "noclip"],
   wordSearch ["world", "gen", "generate"],
   seqWordSearch ["whitelist", "blacklist"] ["add", "remove"],
   wordSearch ["exec", "execute"]]

/-- `_MESSAGING_PATTERNS`: anchored `re.match` rules for messaging
commands. -/
def MESSAGING_PATTERNS : List (String → Bool) :=
  [reFullMatch "say", reFullMatch "announce", reFullMatch "broadcast",
   reFullMatch "msg", reFullMatch "tell", reFullMatch "whisper"]

/-- `_SAFE_NAME_PATTERNS`: anchored `re.match` rules for safe command
names (`^\?$` is case-sensitive but contains no letters). -/
def SAFE_NAME_PATTERNS : List (String → Bool) :=
  [reFullMatch "help", reFullMatch "version",
   (fun s => s == "?" || s == "?\n"),
   dotStarEndMatch "list", dotStarEndMatch "status", dotStarEndMatch "info",
   (fun s => reFullMatch "player" s || reFullMatch "players" s),
   reFullMatch "online", reFullMatch "uptime", reFullMatch "time",
   reFullMatch "seed", reFullMatch "tps", reFullMatch "ping", reFullMatch "motd"]

/-- `_SAFE_DESC_PATTERNS`: `re.search` rules over descriptions suggesting
read-only behaviour. -/
def SAFE_DESC_PATTERNS : List (String → Bool) :=
  [wordSearch ["show", "list", "display", "view", "print", "get"],
   wordSearch ["information", "status", "info"]]

/-! ### Allowlist bootstrapper data model and classification -/

/-- `AllowlistEntry` (generated artifact). -/
structure AllowlistEntry where
  command : String
  max_len : Nat
  arg_policy : String
  reason : String
deriving DecidableEq

/-- `DeniedEntry` (generated artifact). -/
structure DeniedEntry where
  command : String
  reason : String
deriving DecidableEq

/-- `AllowlistBootstrapper._classify_command(key, name, description)`:
ordered rule evaluation returning `(category, reason)`.  The `key`
argument is unused, exactly as in the source. -/
def classify_command (_key name description : String) : String × String :=
  if DANGEROUS_PATTERNS.any (fun p => p name || p description) then
    ("dangerous", "matches_dangerous_pattern")
  else if MESSAGING_PATTERNS.any (fun p => p name) then
    ("messaging", "messaging_command")
  else if SAFE_NAME_PATTERNS.any (fun p => p name) then
    ("safe", "safe_name_pattern")
  else if SAFE_DESC_PATTERNS.any (fun p => p description) then
    ("safe", "safe_description")
  else
    ("dangerous", "unknown_unclassified")

/-- `CommandEntry` (`src/prefect/discovery/registry.py`): a discovered
command with provenance. -/
structure CommandEntry where
  key : String
  name : String
  syntax_ : String
  description : String
  source : String
  page : Nat
  raw_line : String
deriving DecidableEq

/-- `AllowlistBootstrapper.bootstrap`: classify each snapshot command into
the allowed or denied list (timestamps and file paths of the generated
artifact are ambient I/O and omitted). -/
def bootstrap (safeMaxLen messagingMaxLen : Nat) :
    List CommandEntry → List AllowlistEntry × List DeniedEntry
  | [] => ([], [])
  | e :: rest =>
      let cr := classify_command e.key e.name e.description
      let acc := bootstrap safeMaxLen messagingMaxLen rest
      if cr.1 == "safe" then
        (⟨e.key, safeMaxLen, "any", cr.2⟩ :: acc.1, acc.2)
      else if cr.1 == "messaging" then
        (⟨e.key, messagingMaxLen, "message", cr.2⟩ :: acc.1, acc.2)
      else
        (acc.1, ⟨e.key, cr.2⟩ :: acc.2)

/-! ### Help-output parser (`src/prefect/discovery/parser.py`)

The parser's regexes (`_ANSI_ESCAPE`, `_ANSI_BARE`, `_TIMESTAMP`, the four
command-name patterns and the noise patterns) are translated into explicit
scanners with the same backtracking behaviour. -/

/-- Match one `_ANSIESCAPE` alternative at the head of the input and return
the remaining suffix: `ESC [ [0-9;]* letter`, `ESC ] ...BEL`, or
`ESC ( / ESC )` followed by one of `A B 0 1 2`. -/
def matchAnsiEscape (cs : List Char) : Option (List Char) :=
  match cs with
  | '\x1b' :: '[' :: rest =>
      let r := rest.dropWhile (fun c => c.isDigit || c == ';')
      match r with
      | c :: t => if c.isAlpha then some t else none
      | [] => none
  | '\x1b' :: ']' :: rest =>
      let r := rest.dropWhile (fun c => !(c == '\x07'))
      match r with
      | _ :: t => some t
      | [] => none
  | '\x1b' :: c :: d :: rest =>
      if (c == '(' || c == ')') && ['A', 'B', '0', '1', '2'].contains d then some rest
      else none
  | _ => none

/-- Match the `_ANSI_BARE` pattern `\[\d+m` at the head of the input. -/
def matchAnsiBare (cs : List Char) : Option (List Char) :=
  match cs with
  | '[' :: rest =>
      let ds := rest.takeWhile Char.isDigit
      if ds.length == 0 then none
      else
        match rest.drop ds.length with
        | 'm' :: t => some t
        | _ => none
  | _ => none

/-- `re.sub(pattern, "", text)`: scan left to right deleting non-overlapping
matches.  The matchers above consume at least one character, so fuel equal
to the input length suffices. -/
def regexDeleteAll (try_ : List Char → Option (List Char)) : Nat → List Char → List Char
  | 0, cs => cs
  | _ + 1, [] => []
  | fuel + 1, c :: rest =>
      match try_ (c :: rest) with
      | some after => regexDeleteAll try_ fuel after
      | none => c :: regexDeleteAll try_ fuel rest

/-- `strip_ansi(text)`: remove ANSI escape sequences, then bare `[NNm]`
codes. -/
def strip_ansi (s : String) : String :=
  let pass1 := regexDeleteAll matchAnsiEscape s.data.length s.data
  String.mk (regexDeleteAll matchAnsiBare pass1.length pass1)

/-- Consume exactly `n` ASCII digits. -/
def takeDigits : Nat → List Char → Option (List Char)
  | 0, cs => some cs
  | n + 1, c :: t => if c.isDigit then takeDigits n t else none
  | _ + 1, [] => none

/-- Match `_TIMESTAMP` (`^\s*\[\d{4}-\d{2}-\d{2}\s+\d{2}:\d{2}:\d{2}\]\s*`)
at the start of the input, returning the suffix after the match. -/
def matchTimestamp (cs : List Char) : Option (List Char) :=
  let r0 := cs.dropWhile pyIsSpace
  match r0 with
  | '[' :: r1 =>
      match takeDigits 4 r1 with
      | some ('-' :: r2) =>
          match takeDigits 2 r2 with
          | some ('-' :: r3) =>
              match takeDigits 2 r3 with
              | some r4 =>
                  let r5 := r4.dropWhile pyIsSpace
                  if r5.length == r4.length then none  -- \s+ needs at least one
                  else
                    match takeDigits 2 r5 with
                    | some (':' :: r6) =>
                        match takeDigits 2 r6 with
                        | some (':' :: r7) =>
                            match takeDigits 2 r7 with
                            | some (']' :: r8) => some (r8.dropWhile pyIsSpace)
                            | _ => none
                        | _ => none
                    | _ => none
              | none => none
          | _ => none
      | _ => none
  | _ => none

/-- `strip_timestamp(text)`: the pattern is anchored at the string start, so
the substitution removes at most one leading timestamp. -/
def strip_timestamp (s : String) : String :=
  match matchTimestamp s.data with
  | some rest => String.mk rest
  | none => s

/-- `normalize_output(text)`: strip ANSI, normalize line endings, strip
trailing whitespace per line. -/
def normalize_output (text : String) : String :=
  let t := String.mk ((replaceCrLf (strip_ansi text).data).map
    (fun c => if c == '\r' then '\n' else c))
  joinLines ((splitLines t).map pyRstrip)

/-- `normalize_line_for_parsing(line)`. -/
def normalize_line_for_parsing (line : String) : String :=
  pyStrip (strip_timestamp (strip_ansi line))

/-- Noise pattern `^page\s+\d+` (IGNORECASE), `re.match` semantics. -/
def noisePage (cs : List Char) : Bool :=
  match cs with
  | 'p' :: 'a' :: 'g' :: 'e' :: rest =>
      let r := rest.dropWhile pyIsSpace
      r.length < rest.length &&
        (match r with
         | c :: _ => c.isDigit
         | [] => false)
  | _ => false

/-- Noise pattern `^\d+\s*(/|of)\s*\d+` (IGNORECASE). -/
def noisePageCount (cs : List Char) : Bool :=
  let ds := cs.takeWhile Char.isDigit
  if ds.length == 0 then false
  else
    let r1 := (cs.drop ds.length).dropWhile pyIsSpace
    let afterSep : Option (List Char) :=
      match r1 with
      | '/' :: t => some t
      | 'o' :: 'f' :: t => some t
      | _ => none
    match afterSep with
    | none => false
    | some r2 =>
        match r2.dropWhile pyIsSpace with
        | c :: _ => c.isDigit
        | [] => false

/-- Noise pattern `^type\s+.*(help|more)` (IGNORECASE): prefix `type`, one
whitespace, then `help` or `more` somewhere in the rest of the line. -/
def noiseTypeHelp (cs : List Char) : Bool :=
  match cs with
  | 't' :: 'y' :: 'p' :: 'e' :: c :: rest =>
      pyIsSpace c && (listContainsSub ['h', 'e', 'l', 'p'] rest ||
        listContainsSub ['m', 'o', 'r', 'e'] rest)
  | _ => false

/-- Helper: prefix word, at least one whitespace, then a second prefix word
(noise patterns `^available\s+commands` and `^server\s+commands`). -/
def noiseTwoWords (w1 w2 : List Char) (cs : List Char) : Bool :=
  w1.isPrefixOf cs &&
    (let r := cs.drop w1.length
     let r2 := r.dropWhile pyIsSpace
     r2.length < r.length && w2.isPrefixOf r2)

/-- Noise pattern `^[A-Z][a-z]+ing\s+.*\.\.\.$` (case-sensitive): the
server-status "Suggesting garbage collection..." shape.  `[a-z]+ing` must
be followed by `\s`, so the maximal lowercase run after the capital must
end in `ing`; the line must end in `...` after that whitespace. -/
def noiseGerund (cs : List Char) : Bool :=
  match cs with
  | c :: rest =>
      c.isUpper &&
        (let run := rest.takeWhile (fun x => 'a' ≤ x && x ≤ 'z')
         let after := rest.drop run.length
         4 ≤ run.length && ['i', 'n', 'g'].isSuffixOf run &&
           (match after with
            | a :: _ => pyIsSpace a
            | [] => false) &&
           ['.', '.', '.'].isSuffixOf after &&
           4 ≤ after.length)
  | [] => false

/-- `is_noise_line(line)`: the ordered `_NOISE_PATTERNS` checks over the
stripped line.  The pattern `^commands?\s*(page)?\s*\d*` reduces to "starts
with `command`" because every later piece is optional. -/
def is_noise_line (line : String) : Bool :=
  let stripped := pyStrip line
  if stripped = "" then true
  else
    let cs := stripped.data
    let lower := (strToLower stripped).data
    (cs.all (fun c => c == '-')) ||
    (cs.all (fun c => c == '=')) ||
    (cs.all pyIsSpace) ||
    noisePage lower ||
    noisePageCount lower ||
    noiseTypeHelp lower ||
    noiseTwoWords ['a', 'v', 'a', 'i', 'l', 'a', 'b', 'l', 'e']
      ['c', 'o', 'm', 'm', 'a', 'n', 'd', 's'] lower ||
    (['c', 'o', 'm', 'm', 'a', 'n', 'd'].isPrefixOf lower) ||
    noiseTwoWords ['s', 'e', 'r', 'v', 'e', 'r'] ['c', 'o', 'm', 'm', 'a', 'n', 'd', 's'] lower ||
    (match cs with
     | '>' :: c :: _ => pyIsSpace c
     | _ => false) ||
    noiseGerund cs

/-- `ParsedCommand` (name, syntax, description, raw line). -/
structure ParsedCommand where
  name : String
  syntax_ : String
  description : String
  raw_line : String
deriving DecidableEq

/-- `ParsedCommand.key`: lowercase name without leading `/` or `!`. -/
def ParsedCommand.key (p : ParsedCommand) : String :=
  strToLower (pyLstripChars ['/', '!'] p.name)

/-- Candidate name lengths for `[a-zA-Z][a-zA-Z0-9_-]*`, longest first
(regex greediness with backtracking). -/
def nameCandidates (cs : List Char) : List Nat :=
  match cs with
  | c :: rest =>
      if c.isAlpha then
        let run := 1 + (rest.takeWhile (fun x => x.isAlphanum || x == '_' || x == '-')).length
        (List.range run).reverse.map (fun k => k + 1)
      else []
  | [] => []

/-- Tail test for `_RE_SIMPLE_CMD` (`\s*(?:[-:\s]|$)` after the name). -/
def simpleCmdTail (rest : List Char) : Bool :=
  match rest with
  | [] => true
  | c :: _ => pyIsSpace c || c == '-' || c == ':'

/-- Tail test for `_RE_WITH_ARGS` (`\s*[<\[]` after the name). -/
def withArgsTail (rest : List Char) : Bool :=
  match rest.dropWhile pyIsSpace with
  | c :: _ => c == '<' || c == '['
  | [] => false

/-- Tail test for `_RE_CMD_DESC` (`\s*[-:]\s*\S` after the name). -/
def cmdDescTail (rest : List Char) : Bool :=
  match rest.dropWhile pyIsSpace with
  | c :: t => (c == '-' || c == ':') && !(t.dropWhile pyIsSpace).isEmpty
  | [] => false

/-- Longest name prefix whose tail satisfies `tail`, mirroring regex
backtracking over the group `([a-zA-Z][a-zA-Z0-9_-]*)`. -/
def matchNameWith (tail : List Char → Bool) (cs : List Char) : Option String :=
  (nameCandidates cs).findSome?
    (fun k => if tail (cs.drop k) then some (String.mk (cs.take k)) else none)

/-- `_RE_CHAT_STYLE` (`^[/!]([a-zA-Z][a-zA-Z0-9_-]*)`): the stored name
keeps the `/` or `!` prefix. -/
def matchChatStyle (cs : List Char) : Option String :=
  match cs with
  | c :: rest =>
      if (c == '/' || c == '!') then
        match rest with
        | d :: _ =>
            if d.isAlpha then
              let run := rest.takeWhile (fun x => x.isAlphanum || x == '_' || x == '-')
              some (String.mk (c :: run))
            else none
        | [] => none
      else none
  | [] => none

/-- Find the description separator `\s+[-:]\s+(.+)$` in the remainder:
leftmost position with a whitespace run, a dash/colon, a whitespace run and
at least one further character.  Returns `(prefix-before-match, group 1)`. -/
def descSplit : List Char → Option (List Char × List Char)
  | [] => none
  | c :: rest =>
      let here : Option (List Char) :=
        let ws := (c :: rest).takeWhile pyIsSpace
        if ws.length == 0 then none
        else
          match (c :: rest).drop ws.length with
          | sep :: r2 =>
              if sep == '-' || sep == ':' then
                let ws2 := r2.takeWhile pyIsSpace
                let body := r2.drop ws2.length
                if ws2.length == 0 || body.isEmpty then none else some body
              else none
          | [] => none
      match here with
      | some body => some ([], body)
      | none =>
          match descSplit rest with
          | some (pre, body) => some (c :: pre, body)
          | none => none

/-- `parse_command_line(line)`: normalize, reject noise, try the four name
patterns in order, validate the name length, split the remainder into
syntax and description. -/
def parse_command_line (line : String) : Option ParsedCommand :=
  let stripped := normalize_line_for_parsing line
  if stripped = "" || is_noise_line stripped then none
  else
    let cs := stripped.data
    let nameOpt : Option String :=
      match matchChatStyle cs with
      | some n => some n
      | none =>
          match matchNameWith simpleCmdTail cs with
          | some n => some n
          | none =>
              match matchNameWith withArgsTail cs with
              | some n => some n
              | none => matchNameWith cmdDescTail cs
    match nameOpt with
    | none => none
    | some name =>
        if (pyLstripChars ['/', '!'] name).length < 2 || 32 < name.length then none
        else
          let remainder0 := pyStrip (String.mk (cs.drop name.length))
          let remainder := pyLstripChars ['-', ':', ' '] remainder0
          let sd : String × String :=
            match descSplit remainder.data with
            | some (pre, body) => (pyStrip (String.mk pre), pyStrip (String.mk body))
            | none => (remainder, "")
          let syn := if sd.1 ≠ "" then name ++ " " ++ sd.1 else name
          some ⟨name, syn, sd.2, line⟩

/-- `extract_commands_from_page(page_text, page_number)`. -/
def extract_commands_from_page (pageText : String) (pageNumber : Nat) :
    List (ParsedCommand × Nat) :=
  (splitLines (normalize_output pageText)).filterMap
    (fun l => (parse_command_line l).map (fun p => (p, pageNumber)))

/-! ### SHA-256 (`hashlib.sha256`, used by `CommandDiscoverer._compute_hash`)

A direct implementation of FIPS 180-4 over byte lists, with 32-bit words
represented as `Nat` reduced mod `2^32`. -/

/-- Reduce to a 32-bit word. -/
def u32 (n : Nat) : Nat := n % 4294967296

/-- Right rotation of a 32-bit word. -/
def rotr (k x : Nat) : Nat := u32 (x / 2 ^ k + x % 2 ^ k * 2 ^ (32 - k))

/-- Logical right shift. -/
def shr (k x : Nat) : Nat := x / 2 ^ k

/-- Bitwise complement of a 32-bit word. -/
def bnot32 (x : Nat) : Nat := Nat.xor x 4294967295

/-- SHA-256 `Ch(e,f,g)`. -/
def shaCh (e f g : Nat) : Nat := Nat.xor (Nat.land e f) (Nat.land (bnot32 e) g)

/-- SHA-256 `Maj(a,b,c)`. -/
def shaMaj (a b c : Nat) : Nat :=
  Nat.xor (Nat.land a b) (Nat.xor (Nat.land a c) (Nat.land b c))

/-- SHA-256 `Σ0`. -/
def bigSigma0 (x : Nat) : Nat := Nat.xor (rotr 2 x) (Nat.xor (rotr 13 x) (rotr 22 x))

/-- SHA-256 `Σ1`. -/
def bigSigma1 (x : Nat) : Nat := Nat.xor (rotr 6 x) (Nat.xor (rotr 11 x) (rotr 25 x))

/-- SHA-256 `σ0`. -/
def smallSigma0 (x : Nat) : Nat := Nat.xor (rotr 7 x) (Nat.xor (rotr 18 x) (shr 3 x))

/-- SHA-256 `σ1`. -/
def smallSigma1 (x : Nat) : Nat := Nat.xor (rotr 17 x) (Nat.xor (rotr 19 x) (shr 10 x))

/-- SHA-256 round constants (FIPS 180-4 section 4.2.2, here in decimal). -/
def shaK : List Nat :=
  [1116352408, 1899447441, 3049323471, 3921009573, 961987163,
   1508970993, 2453635748, 2870763221, 3624381080, 310598401,
   607225278, 1426881987, 1925078388, 2162078206, 2614888103,
   3248222580, 3835390401, 4022224774, 264347078, 604807628,
   770255983, 1249150122, 1555081692, 1996064986, 2554220882,
   2821834349, 2952996808, 3210313671, 3336571891, 3584528711,
   113926993, 338241895, 666307205, 773529912, 1294757372,
   1396182291, 1695183700, 1986661051, 2177026350, 2456956037,
   2730485921, 2820302411, 3259730800, 3345764771, 3516065817,
   3600352804, 4094571909, 275423344, 430227734, 506948616,
   659060556, 883997877, 958139571, 1322822218, 1537002063,
   1747873779, 1955562222, 2024104815, 2227730452, 2361852424,
   2428436474, 2756734187, 3204031479, 3329325298]

/-- SHA-256 initial hash value (FIPS 180-4 section 5.3.3, in decimal). -/
def shaH0 : List Nat :=
  [1779033703, 3144134277, 1013904242, 2773480762,
   1359893119, 2600822924, 528734635, 1541459225]

/-- UTF-8 encoding of a string (Python `str.encode("utf-8")`). -/
def utf8Bytes (s : String) : List Nat :=
  s.data.flatMap (fun c =>
    let n := c.toNat
    if n < 0x80 then [n]
    else if n < 0x800 then [0xc0 + n / 64, 0x80 + n % 64]
    else if n < 0x10000 then [0xe0 + n / 4096, 0x80 + n / 64 % 64, 0x80 + n % 64]
    else [0xf0 + n / 262144, 0x80 + n / 4096 % 64, 0x80 + n / 64 % 64, 0x80 + n % 64])

/-- Big-endian 8-byte encoding. -/
def be64 (n : Nat) : List Nat :=
  [n / 2 ^ 56 % 256, n / 2 ^ 48 % 256, n / 2 ^ 40 % 256, n / 2 ^ 32 % 256,
   n / 2 ^ 24 % 256, n / 2 ^ 16 % 256, n / 2 ^ 8 % 256, n % 256]

/-- SHA-256 message padding. -/
def shaPad (msg : List Nat) : List Nat :=
  let z := (56 + 64 - (msg.length + 1) % 64) % 64
  msg ++ [0x80] ++ List.replicate z 0 ++ be64 (8 * msg.length)

/-- Split a byte list into 64-byte chunks (the padded message length is a
multiple of 64; fuel equals the list length). -/
def chunks64 : Nat → List Nat → List (List Nat)
  | 0, _ => []
  | _ + 1, [] => []
  | fuel + 1, l => l.take 64 :: chunks64 fuel (l.drop 64)

/-- Big-endian 32-bit words from bytes. -/
def bytesToWords : List Nat → List Nat
  | b0 :: b1 :: b2 :: b3 :: rest => (((b0 * 256 + b1) * 256 + b2) * 256 + b3) :: bytesToWords rest
  | _ => []

/-- Extend the 16 message words to 64 schedule words. -/
def extendW : Nat → List Nat → List Nat
  | 0, w => w
  | fuel + 1, w =>
      let n := w.length
      let nw := u32 (smallSigma1 (w.getD (n - 2) 0) + w.getD (n - 7) 0 +
        smallSigma0 (w.getD (n - 15) 0) + w.getD (n - 16) 0)
      extendW fuel (w ++ [nw])

/-- The eight SHA-256 working variables. -/
structure ShaState where
  a : Nat
  b : Nat
  c : Nat
  d : Nat
  e : Nat
  f : Nat
  g : Nat
  h : Nat

/-- One SHA-256 compression round for a `(k, w)` pair. -/
def shaRound (s : ShaState) (kw : Nat × Nat) : ShaState :=
  let t1 := u32 (s.h + bigSigma1 s.e + shaCh s.e s.f s.g + kw.1 + kw.2)
  let t2 := u32 (bigSigma0 s.a + shaMaj s.a s.b s.c)
  ⟨u32 (t1 + t2), s.a, s.b, s.c, u32 (s.d + t1), s.e, s.f, s.g⟩

/-- Process one 64-byte block. -/
def shaBlock (hs : List Nat) (block : List Nat) : List Nat :=
  let w := extendW 48 (bytesToWords block)
  let s0 : ShaState :=
    ⟨hs.getD 0 0, hs.getD 1 0, hs.getD 2 0, hs.getD 3 0,
     hs.getD 4 0, hs.getD 5 0, hs.getD 6 0, hs.getD 7 0⟩
  let s := (shaK.zip w).foldl shaRound s0
  [u32 (hs.getD 0 0 + s.a), u32 (hs.getD 1 0 + s.b), u32 (hs.getD 2 0 + s.c),
   u32 (hs.getD 3 0 + s.d), u32 (hs.getD 4 0 + s.e), u32 (hs.getD 5 0 + s.f),
   u32 (hs.getD 6 0 + s.g), u32 (hs.getD 7 0 + s.h)]

/-- SHA-256 digest (eight 32-bit words) of a byte list. -/
def sha256Words (msg : List Nat) : List Nat :=
  let padded := shaPad msg
  (chunks64 padded.length padded).foldl shaBlock shaH0

/-- Lowercase hex digit. -/
def hexChar (n : Nat) : Char :=
  if n < 10 then Char.ofNat (48 + n) else Char.ofNat (87 + n)

/-- A 32-bit word as eight lowercase hex characters. -/
def wordHex (w : Nat) : List Char :=
  [hexChar (w / 2 ^ 28 % 16), hexChar (w / 2 ^ 24 % 16), hexChar (w / 2 ^ 20 % 16),
   hexChar (w / 2 ^ 16 % 16), hexChar (w / 2 ^ 12 % 16), hexChar (w / 2 ^ 8 % 16),
   hexChar (w / 2 ^ 4 % 16), hexChar (w % 16)]

/-- `hashlib.sha256(s.encode("utf-8")).hexdigest()`. -/
def sha256hexdigest (s : String) : String :=
  String.mk ((sha256Words (utf8Bytes s)).flatMap wordHex)

/-! ### Command discoverer (`src/prefect/discovery/discoverer.py`) -/

/-- `ConsoleResult`. -/
structure ConsoleResult where
  stdout : String
  exit_ok : Bool
  timestamp : String
deriving DecidableEq

/-- Discoverer configuration (constructor arguments; `inter_page_delay` is
a pure sleep and is omitted).  `help_page_template` models
`help_page_template.format(page=page)`. -/
structure DiscovererConfig where
  max_help_pages : Nat
  page_stable_limit : Nat
  help_cmd : String
  help_page_template : Nat → String

/-- The normalized page content whose hash is taken
(`normalize_output(text).strip()`). -/
def normContent (text : String) : String :=
  pyStrip (normalize_output text)

/-- `CommandDiscoverer._compute_hash`: first 16 hex characters of the
SHA-256 of the normalized page content. -/
def compute_hash (text : String) : String :=
  strTake (sha256hexdigest (normContent text)) 16

/-- `CommandDiscoverer._is_empty_output`. -/
def is_empty_output (text : String) : Bool :=
  let normalized := normContent text
  if normalized = "" then true
  else ((splitLines normalized).filter (fun l => pyStrip l ≠ "")).length == 0

/-- `CommandRegistry.add`: first-writer-wins keyed insertion; returns the
updated registry and whether the entry was new. -/
def registry_add (reg : List CommandEntry) (e : CommandEntry) :
    List CommandEntry × Bool :=
  if reg.any (fun x => x.key == e.key) then (reg, false)
  else (reg ++ [e], true)

/-- `CommandRegistry.get`: lookup by normalized key. -/
def registry_get (reg : List CommandEntry) (key : String) : Option CommandEntry :=
  reg.find? (fun e => e.key == strToLower (pyLstripChars ['/', '!'] key))

/-- `CommandEntry.from_parsed`. -/
def CommandEntry.from_parsed (p : ParsedCommand) (page : Nat) (source : String) :
    CommandEntry :=
  ⟨p.key, p.name, p.syntax_, p.description, source, page, p.raw_line⟩

/-- Add all parsed page entries to the registry, counting how many were
new (the per-page `new_count` loop in `discover`). -/
def addEntries (reg : List CommandEntry) :
    List (ParsedCommand × Nat) → List CommandEntry × Nat
  | [] => (reg, 0)
  | (p, pg) :: rest =>
      let pr := registry_add reg (CommandEntry.from_parsed p pg "help")
      let more := addEntries pr.1 rest
      (more.1, (if pr.2 then 1 else 0) + more.2)

/-- The mutable state of one discovery run: the registry, the loop-detection
hash set, the stability counter and the `DiscoveryMetadata` fields. -/
structure DiscoveryState where
  registry : List CommandEntry
  seen_hashes : List String
  stable_count : Nat
  pages_attempted : Nat
  pages_captured : Nat
  page_hashes : List (Nat × String)
  termination_reason : String
deriving DecidableEq

/-- The page loop of `CommandDiscoverer.discover` (`for page in
range(2, max_help_pages + 1)`), with fuel equal to the number of remaining
iterations.  Each `break` records its termination reason and stops. -/
def discoverLoop (cfg : DiscovererConfig) (run : String → ConsoleResult) :
    Nat → Nat → DiscoveryState → DiscoveryState
  | 0, _, st => st
  | fuel + 1, page, st =>
      let result := run (cfg.help_page_template page)
      let st1 : DiscoveryState := { st with pages_attempted := page }
      if result.exit_ok = false then
        { st1 with termination_reason := "page_" ++ toString page ++ "_failed" }
      else if is_empty_output result.stdout = true then
        { st1 with termination_reason := "empty_page_output" }
      else if st1.seen_hashes.contains (compute_hash result.stdout) = true then
        { st1 with termination_reason := "pagination_loop_detected" }
      else
        let h := compute_hash result.stdout
        let st2 : DiscoveryState :=
          { st1 with seen_hashes := st1.seen_hashes ++ [h],
                     page_hashes := st1.page_hashes ++ [(page, h)],
                     pages_captured := page }
        let pr := addEntries st2.registry (extract_commands_from_page result.stdout page)
        let st3 : DiscoveryState := { st2 with registry := pr.1 }
        if pr.2 == 0 then
          if cfg.page_stable_limit ≤ st3.stable_count + 1 then
            { st3 with stable_count := st3.stable_count + 1,
                       termination_reason := "stable_no_new_commands" }
          else
            discoverLoop cfg run fuel (page + 1) { st3 with stable_count := st3.stable_count + 1 }
        else
          discoverLoop cfg run fuel (page + 1) { st3 with stable_count := 0 }

/-- `CommandDiscoverer.discover`: page 1 handling followed by the page
loop.  The returned state carries the registry and the
`DiscoveryMetadata` fields of the snapshot (`server_root` and
`captured_at` are ambient data irrelevant to the run's logic). -/
def discover (cfg : DiscovererConfig) (run : String → ConsoleResult) :
    DiscoveryState :=
  let result := run cfg.help_cmd
  if result.exit_ok = false then
    ⟨[], [], 0, 1, 0, [], "help_command_failed"⟩
  else
    let h1 := compute_hash result.stdout
    if is_empty_output result.stdout = true then
      ⟨[], [h1], 0, 1, 0, [(1, h1)], "empty_help_output"⟩
    else
      let pr := addEntries [] (extract_commands_from_page result.stdout 1)
      let stable1 := if pr.2 == 0 then 1 else 0
      discoverLoop cfg run (cfg.max_help_pages - 1) 2
        ⟨pr.1, [h1], stable1, 1, 1, [(1, h1)], "max_pages_reached"⟩

/-! ### Rolling log buffer and ingestion workers
(`src/prefect/watchers/log_tail.py`)

The buffer's deque and lock are modelled as a plain list (the lock only
serialises access); `time.time()` is passed in as `now`. -/

/-- Python `line.rstrip("\n")`: drop trailing newline characters only. -/
def rstrip_newlines (s : String) : String :=
  String.mk (dropTrailing (fun c => c == '\n') s.data)

/-- `RollingLogBuffer`: bounded list of `(timestamp, line)` pairs, oldest
first. -/
structure RollingLogBuffer where
  max_lines : Nat
  lines : List (Nat × String)
deriving DecidableEq

/-- `RollingLogBuffer.append(line)`: strip trailing newlines, drop the line
if it is then empty, otherwise append with the current time; a full deque
(`maxlen = max_lines`) evicts from the front. -/
def RollingLogBuffer.append (buf : RollingLogBuffer) (now : Nat) (line : String) :
    RollingLogBuffer :=
  let l := rstrip_newlines line
  if l = "" then buf
  else
    let nl := buf.lines ++ [(now, l)]
    ⟨buf.max_lines, nl.drop (nl.length - buf.max_lines)⟩

/-- Observable actions of one ingestion-loop iteration, in program order.
`callbackInvoked` records whether the callback returned normally. -/
inductive IngestAction where
  | callbackInvoked (line : String) (ok : Bool)
  | appended (line : String)
deriving DecidableEq

/-- Did a callback invocation return without raising? -/
def cbOk (r : Except String Unit) : Bool :=
  match r with
  | Except.ok _ => true
  | Except.error _ => false

/-- One iteration of `StdoutReader._run` for a line read from the stream:
the optional callback runs first (exceptions swallowed), then the line is
buffered. -/
def StdoutReader.processLine (cb : Option (String → Except String Unit))
    (buf : RollingLogBuffer) (now : Nat) (line : String) :
    RollingLogBuffer × List IngestAction :=
  match cb with
  | none => (buf.append now line, [IngestAction.appended line])
  | some f =>
      (buf.append now line,
       [IngestAction.callbackInvoked line (cbOk (f line)), IngestAction.appended line])

/-- One iteration of `FileTailer._run` for a line read from the file: the
line is buffered first, then the optional callback runs (exceptions
swallowed). -/
def FileTailer.processLine (cb : Option (String → Except String Unit))
    (buf : RollingLogBuffer) (now : Nat) (line : String) :
    RollingLogBuffer × List IngestAction :=
  match cb with
  | none => (buf.append now line, [IngestAction.appended line])
  | some f =>
      (buf.append now line,
       [IngestAction.appended line, IngestAction.callbackInvoked line (cbOk (f line))])

/-! ### Log-line ingestion (`src/prefect/server_control/process_manager.py`)

`NecesseProcessManager._ingest_line` with `debug_verbose = False` (the
default; the verbose branches only append diagnostics to the log buffer).
The `re.search` results of the chat regexes (via `_parse_chat`) and of
`_re_join` / `_re_leave` are supplied as oracle inputs, since `re` is an
external library: `chat` is the parsed `(name, message)` if any, and
`joinMatch` / `leaveMatch` are the captured `name` groups if the
respective regex matched.  Callback invocations (whose exceptions the
source swallows) are recorded as emitted events. -/

/-- Events emitted through the manager's optional callbacks. -/
inductive PMEvent where
  | chatLine (name msg : String)
  | chatMention (name msg : String)
  | activity (kind name : String)
deriving DecidableEq

/-- Is this an `on_activity` event? -/
def PMEvent.isActivity : PMEvent → Bool
  | PMEvent.activity _ _ => true
  | _ => false

/-- The mutable per-manager state touched by `_ingest_line`. -/
structure IngestState where
  players_online : List String
  recent_activity_events : List ((String × String) × Nat)
  last_error : Option String
  chat_keyword : String
deriving DecidableEq

/-- `self._recent_activity_events.get(key, 0)`. -/
def lookupEventTime (m : List ((String × String) × Nat)) (k : String × String) : Nat :=
  ((m.find? (fun p => p.1 == k)).map (fun p => p.2)).getD 0

/-- `self._recent_activity_events[key] = now`. -/
def setEventTime (m : List ((String × String) × Nat)) (k : String × String) (v : Nat) :
    List ((String × String) × Nat) :=
  if m.any (fun p => p.1 == k) then
    m.map (fun p => if p.1 == k then (k, v) else p)
  else m ++ [(k, v)]

/-- `set.add` on the online-players set. -/
def setAdd (s : List String) (x : String) : List String :=
  if s.contains x then s else s ++ [x]

/-- `set.discard` on the online-players set. -/
def setDiscard (s : List String) (x : String) : List String :=
  s.filter (fun y => y ≠ x)

/-- `NecesseProcessManager._ingest_line(line)`: error-slot update, chat
callbacks, then join detection (which returns early) and leave
detection, both guarded by the per-`(kind, name)` dedup window. -/
def ingest_line (st : IngestState) (line : String)
    (chat : Option (String × String)) (joinMatch leaveMatch : Option String)
    (now dedupWindow : Nat) : IngestState × List PMEvent :=
  let lower := strToLower line
  let line_stripped := rstrip_newlines line
  let st0 :=
    if strContainsSub lower "error" || strContainsSub lower "exception" then
      { st with last_error := some (strTake line_stripped 500) }
    else st
  let chatEvents : List PMEvent :=
    match chat with
    | none => []
    | some nm =>
        let ev1 := [PMEvent.chatLine (strTake (pyStrip nm.1) 32) (strTake (pyStrip nm.2) 400)]
        if strContainsSub (strToLower nm.2) st0.chat_keyword &&
            !(strToLower (pyStrip nm.1) == "prefect" || strToLower (pyStrip nm.1) == "server") then
          ev1 ++ [PMEvent.chatMention (strTake (pyStrip nm.1) 32) (strTake (pyStrip nm.2) 400)]
        else ev1
  match joinMatch with
  | some name =>
      let name_clean := strTake (pyStrip name) 32
      let last := lookupEventTime st0.recent_activity_events ("join", (strToLower name_clean))
      if now - last < dedupWindow then (st0, chatEvents)
      else
        let st1 := { st0 with
          recent_activity_events :=
            setEventTime st0.recent_activity_events ("join", (strToLower name_clean)) now }
        let st2 := { st1 with players_online := setAdd st1.players_online name }
        (st2, chatEvents ++ [PMEvent.activity "join" name_clean])
  | none =>
      match leaveMatch with
      | some name =>
          let name_clean := strTake (pyStrip name) 32
          let last := lookupEventTime st0.recent_activity_events ("leave", (strToLower name_clean))
          if now - last < dedupWindow then (st0, chatEvents)
          else
            let st1 := { st0 with
              recent_activity_events :=
                setEventTime st0.recent_activity_events ("leave", (strToLower name_clean)) now }
            let st2 := { st1 with players_online := setDiscard st1.players_online name }
            (st2, chatEvents ++ [PMEvent.activity "leave" name_clean])
      | none => (st0, chatEvents)

/-! ### Concrete discovery scenarios -/

/-- The source's default configuration: 50 pages maximum, stability limit
2, first page `help`, later pages `help {page}`. -/
def defaultDiscovererConfig : DiscovererConfig :=
  ⟨50, 2, "help", fun page => "help " ++ toString page⟩

/-- Collaborator for the two-page scenario: page 1 lists `help`/`status`,
page 2 lists `kick`/`ban`, page 3 returns empty text. -/
def twoPageRun : String → ConsoleResult := fun s =>
  if s == "help" then ⟨"help - Lists commands\nstatus - Status", true, ""⟩
  else if s == "help 2" then ⟨"kick <player> - Kicks\nban <player> - Bans", true, ""⟩
  else ⟨"", true, ""⟩

/-- Collaborator whose pagination wraps: page 3 repeats page 1's content
(with different trailing whitespace, normalized away). -/
def wrappingRun : String → ConsoleResult := fun s =>
  if s == "help" then ⟨"alpha - First\nbeta - Second", true, ""⟩
  else if s == "help 2" then ⟨"gamma - Third", true, ""⟩
  else ⟨"alpha - First   \nbeta - Second", true, ""⟩

/-! ## Theorems -/

/-- Sanity check of the SHA-256 implementation against the FIPS 180-4 test
vector for "abc". -/
theorem sha256_test_vector :
    sha256hexdigest "abc" =
      "ba7816bf8f01cfea414140de5dae2223b00361a396177a9cb410ff61f20015ad" := by
  decide

/-- Claim C2: any input whose trimmed form contains a blocklisted character
or a carriage return / line feed makes `sanitize_command` raise an
unsafe-input error; any input whose trimmed form is non-empty, within the
length limit and free of blocklisted characters and CR/LF passes through
unchanged except for surrounding-whitespace trimming.  In particular
`"help; rm -rf /"` is rejected and `"say Hello, World!"` is returned
unchanged. -/
theorem sanitize_command_spec (s : String) (maxLength : Nat) :
    ((∃ c ∈ (pyStrip s).data, c = '\n' ∨ c = '\r' ∨ c ∈ DISALLOWED_CHARS) →
      ∃ msg, sanitize_command s maxLength = Except.error msg) ∧
    (pyStrip s ≠ "" → (pyStrip s).length ≤ maxLength →
      (∀ c ∈ (pyStrip s).data, c ≠ '\n' ∧ c ≠ '\r' ∧ c ∉ DISALLOWED_CHARS) →
      sanitize_command s maxLength = Except.ok (pyStrip s)) ∧
    sanitize_command "help; rm -rf /" 200 = Except.error "Disallowed characters detected" ∧
    sanitize_command "say Hello, World!" 200 = Except.ok "say Hello, World!" := by
  refine ⟨?_, ?_, by rfl, by rfl⟩
  · intro hbad
    by_cases hempty : pyStrip s = ""
    · rw [hempty] at hbad
      simp at hbad
    · by_cases hlen : maxLength < (pyStrip s).length
      · exact ⟨"Command exceeds max length (" ++ toString maxLength ++ ")",
          by simp [sanitize_command, hempty, hlen]⟩
      · by_cases hnl : ∃ c ∈ (pyStrip s).data, c = '\n' ∨ c = '\r'
        · exact ⟨"Newlines are not permitted",
            by simp [sanitize_command, check_common, hempty, hlen, hnl]⟩
        · have hdis : ∃ c ∈ (pyStrip s).data, c ∈ DISALLOWED_CHARS := by
            rcases hbad with ⟨c, hc, h | h | h⟩
            · exact absurd ⟨c, hc, Or.inl h⟩ hnl
            · exact absurd ⟨c, hc, Or.inr h⟩ hnl
            · exact ⟨c, hc, h⟩
          exact ⟨"Disallowed characters detected",
            by simp [sanitize_command, check_common, hempty, hlen, hnl, hdis]⟩
  · intro h1 h2 h3
    have hnl : ¬ ∃ c ∈ (pyStrip s).data, c = '\n' ∨ c = '\r' := by
      rintro ⟨c, hc, h | h⟩
      · exact (h3 c hc).1 h
      · exact (h3 c hc).2.1 h
    have hdis : ¬ ∃ c ∈ (pyStrip s).data, c ∈ DISALLOWED_CHARS := by
      rintro ⟨c, hc, h⟩
      exact (h3 c hc).2.2 h
    simp [sanitize_command, check_common, h1, Nat.not_lt.mpr h2, hnl, hdis]

/-- Witness for C2: concrete instantiations of both directions. -/
theorem sanitize_command_spec_witness :
    sanitize_command "  version  " 200 = Except.ok "version" :=
  (sanitize_command_spec "  version  " 200).2.1 (by decide) (by decide) (by decide)

/-- Claim C3 counterexample: with an allowlist containing the empty prefix
and the empty command, the claimed equivalence "allowed iff the left-trimmed
command equals or starts with some prefix" is false — the code returns
`false` although the trimmed command equals the prefix `""`. -/
theorem is_allowed_iff_cex :
    ¬ (((⟨[""]⟩ : CommandAllowlist).is_allowed "" = true) ↔
        ∃ p ∈ (⟨[""]⟩ : CommandAllowlist).prefixes,
          pyLstrip "" = p ∨ pyStartsWith (pyLstrip "") p = true) := by
  decide

/-- Claim C3 (amended): `is_allowed` returns true iff the command left-trims
to a non-empty string that equals or starts with some allowlist prefix; in
particular, with the default allowlist (whose prefixes include `"say "`),
`"say hello"` is allowed, `"saying"` is not, and the empty command is never
allowed for any allowlist. -/
theorem is_allowed_spec (al : CommandAllowlist) (cmd : String) :
    (al.is_allowed cmd = true ↔
      (pyLstrip cmd ≠ "" ∧
        ∃ p ∈ al.prefixes, pyLstrip cmd = p ∨ pyStartsWith (pyLstrip cmd) p = true)) ∧
    (CommandAllowlist.default []).is_allowed "say hello" = true ∧
    (CommandAllowlist.default []).is_allowed "saying" = false ∧
    ∀ al2 : CommandAllowlist, al2.is_allowed "" = false := by
  refine ⟨?_, by decide, by decide, fun al2 => rfl⟩
  by_cases h : pyLstrip cmd = ""
  · simp [CommandAllowlist.is_allowed, h]
  · simp [CommandAllowlist.is_allowed, h, List.any_eq_true]

/-- Witness for C3: the amended equivalence applied to the default
allowlist and the command `"status x"`. -/
theorem is_allowed_spec_witness :
    (CommandAllowlist.default []).is_allowed "status x" = true :=
  ((is_allowed_spec (CommandAllowlist.default []) "status x").1).mpr
    ⟨by decide, "status", by decide, Or.inr (by decide)⟩

/-- Claim C6: adding an entry whose normalized key is already present
leaves the registry unchanged (`add` returns `False`): same size, same
lookup result; a later duplicate is dropped, keeping the first entry's
metadata intact. -/
theorem registry_add_first_writer_wins (reg : List CommandEntry) (e : CommandEntry)
    (h : reg.any (fun x => x.key == e.key) = true) :
    registry_add reg e = (reg, false) ∧
    (registry_add reg e).1.length = reg.length ∧
    registry_get (registry_add reg e).1 e.key = registry_get reg e.key ∧
    ∀ e1 e2 : CommandEntry, e1.key = e2.key →
      (registry_add (registry_add [] e1).1 e2).1 = [e1] := by
  have hadd : registry_add reg e = (reg, false) := by simp [registry_add, h]
  refine ⟨hadd, by rw [hadd], by rw [hadd], ?_⟩
  intro e1 e2 hkey
  simp [registry_add, hkey]

/-- Witness for C6: a duplicate of the key `"kick"` with different metadata
is dropped. -/
theorem registry_add_first_writer_wins_witness :
    registry_add [⟨"kick", "kick", "kick <player>", "Kicks", "help", 1, "kick"⟩]
      ⟨"kick", "kick", "kick <p> <reason>", "other", "help", 2, "dup"⟩ =
      ([⟨"kick", "kick", "kick <player>", "Kicks", "help", 1, "kick"⟩], false) :=
  (registry_add_first_writer_wins
    [⟨"kick", "kick", "kick <player>", "Kicks", "help", 1, "kick"⟩]
    ⟨"kick", "kick", "kick <p> <reason>", "other", "help", 2, "dup"⟩ (by decide)).1

/-- Claim C8 counterexample: the file tailer appends the line to the buffer
*before* invoking the callback — for a callback that raises, the recorded
trace is append-then-callback, not callback-then-append as claimed. -/
theorem file_tailer_order_cex :
    (FileTailer.processLine (some (fun _ => Except.error "boom")) ⟨10, []⟩ 0 "x").2 =
      [IngestAction.appended "x", IngestAction.callbackInvoked "x" false] ∧
    (FileTailer.processLine (some (fun _ => Except.error "boom")) ⟨10, []⟩ 0 "x").2 ≠
      [IngestAction.callbackInvoked "x" false, IngestAction.appended "x"] := by
  decide

/-- Claim C8 (amended): with a callback configured, the subprocess-output
stream reader invokes the callback before appending, while the file tailer
appends before invoking the callback; in both variants the append happens
and the ingestion result does not depend on whether the callback raised. -/
theorem ingestion_callback_order (f : String → Except String Unit)
    (buf : RollingLogBuffer) (now : Nat) (line : String) :
    StdoutReader.processLine (some f) buf now line =
      (buf.append now line,
       [IngestAction.callbackInvoked line (cbOk (f line)), IngestAction.appended line]) ∧
    FileTailer.processLine (some f) buf now line =
      (buf.append now line,
       [IngestAction.appended line, IngestAction.callbackInvoked line (cbOk (f line))]) ∧
    ∀ g : String → Except String Unit,
      (StdoutReader.processLine (some f) buf now line).1 =
          (StdoutReader.processLine (some g) buf now line).1 ∧
        (FileTailer.processLine (some f) buf now line).1 =
          (FileTailer.processLine (some g) buf now line).1 :=
  ⟨rfl, rfl, fun _ => ⟨rfl, rfl⟩⟩

/-- Claim C9 counterexample: a line consisting of a single space is *not*
dropped — `append` only strips trailing newlines, so `" "` is stored. -/
theorem buffer_append_whitespace_cex :
    (RollingLogBuffer.append ⟨100, []⟩ 0 " ").lines = [(0, " ")] ∧
    RollingLogBuffer.append ⟨100, []⟩ 0 " " ≠ (⟨100, []⟩ : RollingLogBuffer) := by
  decide

/-- Claim C9 (amended): `append` drops a line exactly when it is empty after
stripping trailing newline characters (whitespace-only lines such as `" "`
are kept); any other line is stored with the current time attached, and
when the buffer is at its (positive) capacity the oldest line is
evicted. -/
theorem buffer_append_spec (buf : RollingLogBuffer) (now : Nat) (line : String) :
    (rstrip_newlines line = "" → buf.append now line = buf) ∧
    (rstrip_newlines line ≠ "" → buf.lines.length ≤ buf.max_lines →
      1 ≤ buf.max_lines →
      (buf.append now line).lines =
        (if buf.lines.length < buf.max_lines
         then buf.lines ++ [(now, rstrip_newlines line)]
         else buf.lines.tail ++ [(now, rstrip_newlines line)]) ∧
      (buf.append now line).lines.getLast? = some (now, rstrip_newlines line)) := by
  constructor
  · intro h
    simp [RollingLogBuffer.append, h]
  · intro h hcap hpos
    have hres : (buf.append now line).lines =
        (buf.lines ++ [(now, rstrip_newlines line)]).drop
          (buf.lines.length + 1 - buf.max_lines) := by
      simp [RollingLogBuffer.append, h]
    by_cases hlt : buf.lines.length < buf.max_lines
    · have hdrop : buf.lines.length + 1 - buf.max_lines = 0 := by omega
      rw [hres, hdrop, List.drop_zero]
      exact ⟨by simp [hlt], List.getLast?_concat _⟩
    · have hdrop : buf.lines.length + 1 - buf.max_lines = 1 := by omega
      rw [hres, hdrop, List.drop_append_of_le_length (by omega), List.drop_one]
      exact ⟨by simp [hlt], List.getLast?_concat _⟩

/-- Every allowed-list command produced by `bootstrap` is the key of some
input entry. -/
theorem bootstrap_allowed_sub (sl ml : Nat) :
    ∀ entries (a : AllowlistEntry), a ∈ (bootstrap sl ml entries).1 →
      a.command ∈ entries.map CommandEntry.key := by
  intro entries
  induction entries with
  | nil =>
      intro a ha
      simp [bootstrap] at ha
  | cons e rest ih =>
      intro a ha
      by_cases h1 : ((classify_command e.key e.name e.description).1 == "safe") = true
      · simp only [bootstrap, h1, if_true] at ha
        rcases List.mem_cons.mp ha with h | h
        · subst h
          simp
        · simp only [List.map_cons, List.mem_cons]
          exact Or.inr (ih a h)
      · by_cases h2 : ((classify_command e.key e.name e.description).1 == "messaging") = true
        · simp only [bootstrap, h1, h2, if_true, if_false, Bool.false_eq_true] at ha
          rcases List.mem_cons.mp ha with h | h
          · subst h
            simp
          · simp only [List.map_cons, List.mem_cons]
            exact Or.inr (ih a h)
        · simp only [bootstrap, h1, h2, if_false, Bool.false_eq_true] at ha
          simp only [List.map_cons, List.mem_cons]
          exact Or.inr (ih a ha)

/-- If an entry classifies as `("dangerous", "unknown_unclassified")` and
keys are unique, `bootstrap` records it in the denied list and its key
never appears among the allowed commands. -/
theorem bootstrap_denied_complete (sl ml : Nat) :
    ∀ entries (e : CommandEntry), e ∈ entries →
      (entries.map CommandEntry.key).Nodup →
      classify_command e.key e.name e.description = ("dangerous", "unknown_unclassified") →
      (⟨e.key, "unknown_unclassified"⟩ : DeniedEntry) ∈ (bootstrap sl ml entries).2 ∧
        e.key ∉ (bootstrap sl ml entries).1.map AllowlistEntry.command := by
  intro entries
  induction entries with
  | nil =>
      intro e he
      simp at he
  | cons x rest ih =>
      intro e he hnodup hclass
      have hnodup' : (rest.map CommandEntry.key).Nodup :=
        (List.nodup_cons.mp (by simpa using hnodup)).2
      have hxkey : x.key ∉ rest.map CommandEntry.key :=
        (List.nodup_cons.mp (by simpa using hnodup)).1
      rcases List.mem_cons.mp he with hex | hex
      · subst hex
        have h1 : ((classify_command e.key e.name e.description).1 == "safe") = false := by
          rw [hclass]
          decide
        have h2 : ((classify_command e.key e.name e.description).1 == "messaging") = false := by
          rw [hclass]
          decide
        constructor
        · simp only [bootstrap, h1, h2, if_false, Bool.false_eq_true]
          rw [hclass]
          exact List.mem_cons_self _ _
        · simp only [bootstrap, h1, h2, if_false, Bool.false_eq_true]
          intro hmem
          rcases List.mem_map.mp hmem with ⟨a, ha, hcmd⟩
          have := bootstrap_allowed_sub sl ml rest a ha
          rw [hcmd] at this
          exact hxkey this
      · have hrec := ih e hex hnodup' hclass
        have hekey : e.key ∈ rest.map CommandEntry.key :=
          List.mem_map.mpr ⟨e, hex, rfl⟩
        have hne : x.key ≠ e.key := by
          intro hxe
          rw [hxe] at hxkey
          exact hxkey hekey
        by_cases h1 : ((classify_command x.key x.name x.description).1 == "safe") = true
        · constructor
          · simp only [bootstrap, h1, if_true]
            exact hrec.1
          · simp only [bootstrap, h1, if_true, List.map_cons, List.mem_cons]
            intro hmem
            rcases hmem with hmem | hmem
            · exact hne hmem.symm
            · exact hrec.2 hmem
        · by_cases h2 : ((classify_command x.key x.name x.description).1 == "messaging") = true
          · constructor
            · simp only [bootstrap, h1, h2, if_true, if_false, Bool.false_eq_true]
              exact hrec.1
            · simp only [bootstrap, h1, h2, if_true, if_false, Bool.false_eq_true,
                List.map_cons, List.mem_cons]
              intro hmem
              rcases hmem with hmem | hmem
              · exact hne hmem.symm
              · exact hrec.2 hmem
          · constructor
            · simp only [bootstrap, h1, h2, if_false, Bool.false_eq_true]
              exact List.mem_cons_of_mem _ hrec.1
            · simp only [bootstrap, h1, h2, if_false, Bool.false_eq_true]
              exact hrec.2

/-- Claim C1: a discovered command whose name and description match none of
the dangerous, messaging, safe-name and safe-description patterns is
classified `("dangerous", "unknown_unclassified")`, lands in the denied
list of the generated allowlist with that reason, and never appears in the
allowed list. -/
theorem classifier_default_deny (sl ml : Nat) (e : CommandEntry)
    (entries : List CommandEntry)
    (hmem : e ∈ entries) (hnodup : (entries.map CommandEntry.key).Nodup)
    (hd : DANGEROUS_PATTERNS.any (fun p => p e.name || p e.description) = false)
    (hm : MESSAGING_PATTERNS.any (fun p => p e.name) = false)
    (hs : SAFE_NAME_PATTERNS.any (fun p => p e.name) = false)
    (hsd : SAFE_DESC_PATTERNS.any (fun p => p e.description) = false) :
    classify_command e.key e.name e.description = ("dangerous", "unknown_unclassified") ∧
    (⟨e.key, "unknown_unclassified"⟩ : DeniedEntry) ∈ (bootstrap sl ml entries).2 ∧
    e.key ∉ (bootstrap sl ml entries).1.map AllowlistEntry.command := by
  have hclass : classify_command e.key e.name e.description =
      ("dangerous", "unknown_unclassified") := by
    simp [classify_command, hd, hm, hs, hsd]
  have := bootstrap_denied_complete sl ml entries e hmem hnodup hclass
  exact ⟨hclass, this.1, this.2⟩

/-- Witness for C1: the unknown command `"foobar"` (empty description) is
denied as `unknown_unclassified` and not allowed. -/
theorem classifier_default_deny_witness :
    (⟨"foobar", "unknown_unclassified"⟩ : DeniedEntry) ∈
      (bootstrap 200 400 [⟨"foobar", "foobar", "foobar", "", "help", 1, "foobar"⟩]).2 ∧
    "foobar" ∉ (bootstrap 200 400
      [⟨"foobar", "foobar", "foobar", "", "help", 1, "foobar"⟩]).1.map
        AllowlistEntry.command := by
  have h := classifier_default_deny 200 400
    ⟨"foobar", "foobar", "foobar", "", "help", 1, "foobar"⟩
    [⟨"foobar", "foobar", "foobar", "", "help", 1, "foobar"⟩]
    (by decide) (by decide) (by decide) (by decide) (by decide) (by decide)
  exact ⟨h.2.1, h.2.2⟩

/-- Claim C10: when an ingested line matches both the join and the leave
regex and the join event is not suppressed by the dedup window, exactly one
activity event is emitted, it is a join for the cleaned player name, the
raw captured name is added to the online-players set, and no player is
ever removed (the leave branch is unreachable). -/
theorem ingest_line_join_priority (st : IngestState) (line : String)
    (chat : Option (String × String)) (nameJ nameL : String)
    (now dedupWindow : Nat)
    (hded : ¬ (now - lookupEventTime st.recent_activity_events
      ("join", strToLower (strTake (pyStrip nameJ) 32)) < dedupWindow)) :
    (ingest_line st line chat (some nameJ) (some nameL) now dedupWindow).2.filter
        PMEvent.isActivity = [PMEvent.activity "join" (strTake (pyStrip nameJ) 32)] ∧
    (ingest_line st line chat (some nameJ) (some nameL) now dedupWindow).1.players_online =
      setAdd st.players_online nameJ ∧
    ∀ p ∈ st.players_online,
      p ∈ (ingest_line st line chat (some nameJ) (some nameL) now dedupWindow).1.players_online := by
  have hsetAdd : ∀ p ∈ st.players_online, p ∈ setAdd st.players_online nameJ := by
    intro p hp
    rw [setAdd]
    split
    · exact hp
    · exact List.mem_append_left _ hp
  cases chat with
  | none =>
      simp only [ingest_line]
      by_cases herr : (strContainsSub (strToLower line) "error" ||
          strContainsSub (strToLower line) "exception") = true
      all_goals
        simp only [herr, if_true, if_false, Bool.false_eq_true]
      all_goals
        rw [if_neg (by simpa using hded)]
      all_goals
        exact ⟨by rfl, rfl, hsetAdd⟩
  | some nm =>
      simp only [ingest_line]
      by_cases herr : (strContainsSub (strToLower line) "error" ||
          strContainsSub (strToLower line) "exception") = true
      all_goals
        simp only [herr, if_true, if_false, Bool.false_eq_true]
      all_goals
        rw [if_neg (by simpa using hded)]
      all_goals
        refine ⟨?_, rfl, hsetAdd⟩
      all_goals
        split
      all_goals
        rfl

/-- Witness for C10: a line reported as both a join and a leave for
`"Alice"`, with an empty dedup history, emits exactly one join event and
adds the player. -/
theorem ingest_line_join_priority_witness :
    (ingest_line ⟨[], [], none, "prefect"⟩ "Alice joined then left" none
        (some "Alice") (some "Alice") 100 5).2.filter PMEvent.isActivity =
      [PMEvent.activity "join" "Alice"] ∧
    (ingest_line ⟨[], [], none, "prefect"⟩ "Alice joined then left" none
        (some "Alice") (some "Alice") 100 5).1.players_online = ["Alice"] := by
  have h := ingest_line_join_priority ⟨[], [], none, "prefect"⟩
    "Alice joined then left" none "Alice" "Alice" 100 5 (by decide)
  refine ⟨?_, ?_⟩
  · rw [h.1]
    decide
  · rw [h.2.1]
    decide

/-- The page-loop invariant behind claim C4: if the state's counters are
consistent on entry, the loop keeps `pages_captured ≤ pages_attempted ≤
max_help_pages` and only ever records one of the documented termination
reasons. -/
theorem discoverLoop_invariant (cfg : DiscovererConfig) (run : String → ConsoleResult) :
    ∀ (fuel page : Nat) (st : DiscoveryState),
      st.pages_captured ≤ st.pages_attempted →
      st.pages_attempted < page →
      page + fuel ≤ cfg.max_help_pages + 1 →
      (st.termination_reason ∈
          (["help_command_failed", "empty_help_output", "empty_page_output",
            "pagination_loop_detected", "stable_no_new_commands",
            "max_pages_reached"] : List String) ∨
        ∃ n : Nat, st.termination_reason = "page_" ++ toString n ++ "_failed") →
      ((discoverLoop cfg run fuel page st).pages_captured ≤
          (discoverLoop cfg run fuel page st).pages_attempted ∧
        (discoverLoop cfg run fuel page st).pages_attempted ≤ cfg.max_help_pages ∧
        ((discoverLoop cfg run fuel page st).termination_reason ∈
            (["help_command_failed", "empty_help_output", "empty_page_output",
              "pagination_loop_detected", "stable_no_new_commands",
              "max_pages_reached"] : List String) ∨
          ∃ n : Nat, (discoverLoop cfg run fuel page st).termination_reason =
            "page_" ++ toString n ++ "_failed")) := by
  intro fuel
  induction fuel with
  | zero =>
      intro page st h1 h2 h3 h4
      rw [discoverLoop]
      exact ⟨h1, by omega, h4⟩
  | succ fuel ih =>
      intro page st h1 h2 h3 h4
      rw [discoverLoop]
      by_cases c1 : (run (cfg.help_page_template page)).exit_ok = false
      · rw [if_pos c1]
        refine ⟨by simpa using (by omega : st.pages_captured ≤ page), by simpa using (by omega : page ≤ cfg.max_help_pages), ?_⟩
        exact Or.inr ⟨page, rfl⟩
      · rw [if_neg c1]
        by_cases c2 : is_empty_output (run (cfg.help_page_template page)).stdout = true
        · rw [if_pos c2]
          exact ⟨by simpa using (by omega : st.pages_captured ≤ page),
            by simpa using (by omega : page ≤ cfg.max_help_pages),
            Or.inl (by simp)⟩
        · rw [if_neg c2]
          by_cases c3 : ({ st with pages_attempted := page } :
              DiscoveryState).seen_hashes.contains
                (compute_hash (run (cfg.help_page_template page)).stdout) = true
          · rw [if_pos c3]
            exact ⟨by simpa using (by omega : st.pages_captured ≤ page),
              by simpa using (by omega : page ≤ cfg.max_help_pages),
              Or.inl (by simp)⟩
          · rw [if_neg c3]
            by_cases c4 : ((addEntries ({ st with pages_attempted := page } :
                DiscoveryState).registry (extract_commands_from_page
                  (run (cfg.help_page_template page)).stdout page)).2 == 0) = true
            · rw [if_pos c4]
              by_cases c5 : cfg.page_stable_limit ≤ st.stable_count + 1
              · rw [if_pos c5]
                exact ⟨by simpa using (le_refl page),
                  by simpa using (by omega : page ≤ cfg.max_help_pages),
                  Or.inl (by simp)⟩
              · rw [if_neg c5]
                exact ih (page + 1) _ (by simp) (by simp) (by omega) h4
            · rw [if_neg c4]
              exact ih (page + 1) _ (by simp) (by simp) (by omega) h4

/-- Claim C4: for every discovery run (any collaborator behaviour and any
configuration with at least one help page), the resulting metadata
satisfies `pages_captured ≤ pages_attempted ≤ max_help_pages`, and the
termination reason is one of `help_command_failed`, `empty_help_output`,
`page_N_failed`, `empty_page_output`, `pagination_loop_detected`,
`stable_no_new_commands`, `max_pages_reached`. -/
theorem discovery_metadata_invariant (cfg : DiscovererConfig)
    (run : String → ConsoleResult) (hmax : 1 ≤ cfg.max_help_pages) :
    (discover cfg run).pages_captured ≤ (discover cfg run).pages_attempted ∧
    (discover cfg run).pages_attempted ≤ cfg.max_help_pages ∧
    ((discover cfg run).termination_reason ∈
        (["help_command_failed", "empty_help_output", "empty_page_output",
          "pagination_loop_detected", "stable_no_new_commands",
          "max_pages_reached"] : List String) ∨
      ∃ n : Nat, (discover cfg run).termination_reason =
        "page_" ++ toString n ++ "_failed") := by
  rw [discover]
  by_cases c1 : (run cfg.help_cmd).exit_ok = false
  · rw [if_pos c1]
    exact ⟨by simp, by simpa using hmax, Or.inl (by simp)⟩
  · rw [if_neg c1]
    by_cases c2 : is_empty_output (run cfg.help_cmd).stdout = true
    · rw [if_pos c2]
      exact ⟨by simp, by simpa using hmax, Or.inl (by simp)⟩
    · rw [if_neg c2]
      exact discoverLoop_invariant cfg run (cfg.max_help_pages - 1) 2 _
        (by simp) (by simp) (by omega) (Or.inl (by simp))

/-- Witness for C4: the two-page scenario run satisfies the metadata
invariant. -/
theorem discovery_metadata_invariant_witness :
    (discover ⟨50, 2, "help", fun p => "help " ++ toString p⟩
        (fun s => if s == "help" then ⟨"help - Lists commands", true, ""⟩
          else ⟨"", true, ""⟩)).pages_captured ≤
      (discover ⟨50, 2, "help", fun p => "help " ++ toString p⟩
        (fun s => if s == "help" then ⟨"help - Lists commands", true, ""⟩
          else ⟨"", true, ""⟩)).pages_attempted :=
  (discovery_metadata_invariant ⟨50, 2, "help", fun p => "help " ++ toString p⟩
    (fun s => if s == "help" then ⟨"help - Lists commands", true, ""⟩
      else ⟨"", true, ""⟩) (by decide)).1

/-- Witness for C9: appending a fourth line to a full three-line buffer
evicts the oldest line. -/
theorem buffer_append_spec_witness :
    (RollingLogBuffer.append ⟨3, [(0, "a"), (1, "b"), (2, "c")]⟩ 5 "d\n").lines =
      [(1, "b"), (2, "c"), (5, "d")] := by
  have h := (buffer_append_spec ⟨3, [(0, "a"), (1, "b"), (2, "c")]⟩ 5 "d\n").2
    (by decide) (by decide) (by decide)
  rw [h.1]
  decide

set_option maxRecDepth 1000000 in
/-- Claim C5: whenever the page loop processes a page whose normalized
content (after ANSI stripping and trailing-whitespace trimming) is
byte-identical to that of a page whose hash was already recorded, the run
terminates right there with `pagination_loop_detected`, whatever the page
numbers; and a full run whose page 3 repeats page 1's content (modulo
trailing whitespace) ends with `pagination_loop_detected`. -/
theorem pagination_loop_spec
    (cfg : DiscovererConfig) (run : String → ConsoleResult)
    (fuel page : Nat) (st : DiscoveryState) (earlier : String)
    (hfuel : fuel ≠ 0)
    (hok : (run (cfg.help_page_template page)).exit_ok = true)
    (hne : is_empty_output (run (cfg.help_page_template page)).stdout = false)
    (hsame : normContent (run (cfg.help_page_template page)).stdout = normContent earlier)
    (hrec : st.seen_hashes.contains (compute_hash earlier) = true) :
    ((discoverLoop cfg run fuel page st).termination_reason = "pagination_loop_detected" ∧
      (discoverLoop cfg run fuel page st).pages_attempted = page) ∧
    (discover defaultDiscovererConfig wrappingRun).termination_reason =
      "pagination_loop_detected" := by
  constructor
  · obtain ⟨f, rfl⟩ : ∃ f, fuel = f + 1 := ⟨fuel - 1, by omega⟩
    rw [discoverLoop]
    rw [if_neg (by simp [hok])]
    rw [if_neg (by simp [hne])]
    have hh : compute_hash (run (cfg.help_page_template page)).stdout =
        compute_hash earlier := by
      unfold compute_hash
      rw [hsame]
    rw [if_pos (by rw [hh]; exact hrec)]
    exact ⟨rfl, rfl⟩
  · decide

set_option maxRecDepth 1000000 in
/-- Witness for C5: a loop state that has already recorded the hash of
`"alpha - First"` detects the loop at page 7. -/
theorem pagination_loop_spec_witness :
    (discoverLoop defaultDiscovererConfig
        (fun _ => ⟨"alpha - First", true, ""⟩) 3 7
        ⟨[], [compute_hash "alpha - First"], 0, 6, 6, [], "max_pages_reached"⟩
      ).termination_reason = "pagination_loop_detected" :=
  ((pagination_loop_spec defaultDiscovererConfig
      (fun _ => ⟨"alpha - First", true, ""⟩) 3 7
      ⟨[], [compute_hash "alpha - First"], 0, 6, 6, [], "max_pages_reached"⟩
      "alpha - First" (by decide) (by decide) (by decide) (by decide)
      (by decide)).1).1

set_option maxRecDepth 1000000 in
/-- Claim C7: with page 1 `"help - Lists commands\nstatus - Status"`,
page 2 `"kick <player> - Kicks\nban <player> - Bans"` and an empty page 3,
discovery produces exactly the registry keys `help`, `status`, `kick`,
`ban`, with `pages_captured = 2` and termination reason
`empty_page_output`. -/
theorem discovery_two_page_scenario :
    (discover defaultDiscovererConfig twoPageRun).registry.map
        (fun e => e.key) = ["help", "status", "kick", "ban"] ∧
    (discover defaultDiscovererConfig twoPageRun).pages_captured = 2 ∧
    (discover defaultDiscovererConfig twoPageRun).termination_reason =
      "empty_page_output" := by
  decide

end Prefect
